import Mathlib

/-!
Shallow embedding of the data-aggregation pipeline of `val-discord-status`
(`src/core/fetch_data.py`).  Python dynamic values are modelled with typed
structures whose optional fields mirror the `dict.get` defaults of the source;
Python floats are modelled as exact rationals; lamport quantities are integers.
Fallible fetches are modelled as `Except Unit` inputs frozen per run: an
`Except.error` input stands for the `RuntimeError` raised by the transport
layer after every endpoint and retry attempt is exhausted.
-/

/- ## Transport layer: `_make_rpc_request` (fetch_data.py lines 20-104) -/

/-- The `last_exception_per_url` dictionary: an association list keyed by URL,
in insertion order, one error message per URL. -/
abbrev ErrMap := List (String × String)

/-- Python dict assignment `d[k] = v`: updating an existing key keeps its
position, a new key is appended at the end. -/
def dictInsert (k v : String) : ErrMap → ErrMap
  | [] => [(k, v)]
  | p :: rest => if p.1 = k then (k, v) :: rest else p :: dictInsert k v rest

/-- Observable outcome of one `_make_rpc_request` call: how many individual
call attempts were made, the durations of the sleeps performed between passes,
and either the first successful result or the consolidated error map. -/
structure RpcOutcome (V : Type) where
  attempts : Nat
  sleepLog : List Nat
  result : Except ErrMap V

/-- Inner loop of `_make_rpc_request` (lines 58-86): one in-order pass over the
URL list.  `outcome a u` freezes what the network returns for URL `u` during
pass `a`; `Except.error` covers timeouts, HTTP errors, request failures,
JSON decode errors and RPC-level error fields alike, all of which the source
records in `last_exception_per_url` and then moves on to the next URL.
On the first success the pass stops immediately. -/
def tryUrls {V : Type} (outcome : Nat → String → Except String V) (attempt : Nat) :
    List String → Nat → ErrMap → Nat × ErrMap × Option V
  | [], att, errs => (att, errs, none)
  | u :: rest, att, errs =>
    match outcome attempt u with
    | .ok v => (att + 1, errs, some v)
    | .error e => tryUrls outcome attempt rest (att + 1) (dictInsert u e errs)

/-- Outer loop of `_make_rpc_request` (lines 56-97): `fuel` is the number of
passes still allowed.  After a fully failed pass the source sleeps
`delay_seconds` and retries, except after the last pass, which raises the
consolidated error instead. -/
def rpcLoop {V : Type} (outcome : Nat → String → Except String V) (urls : List String)
    (delay : Nat) : Nat → Nat → Nat → List Nat → ErrMap → RpcOutcome V
  | 0, _, att, slept, errs => ⟨att, slept, .error errs⟩
  | fuel + 1, aIdx, att, slept, errs =>
    match tryUrls outcome aIdx urls att errs with
    | (att', _, some v) => ⟨att', slept, .ok v⟩
    | (att', errs', none) =>
      if fuel = 0 then ⟨att', slept, .error errs'⟩
      else rpcLoop outcome urls delay fuel (aIdx + 1) att' (slept ++ [delay]) errs'

/-- `_make_rpc_request`: `max_attempts = max_retries + 1` (line 51). -/
def makeRpcRequest {V : Type} (outcome : Nat → String → Except String V)
    (urls : List String) (maxRetries delay : Nat) : RpcOutcome V :=
  rpcLoop outcome urls delay (maxRetries + 1) 0 0 [] []

/- ## Balance fetcher: `get_balance_rpc` (lines 190-210) -/

/-- Decoded shape of a `getBalance` RPC result: the decoded `result` field is
`None` (`null`); it is a dict whose `value` field is absent or not an integer
(`noValue`); it is neither `None` nor a dict — e.g. a bare number, string or
list — on which `result.get("value")` at line 203 raises `AttributeError`
(`notDict`); or it is a dict with a proper integer `value` field (`value`). -/
inductive BalRes where
  | null
  | noValue
  | notDict
  | value (v : Int)
  deriving DecidableEq, Repr

/-- `get_balance_rpc` (lines 190-210): an empty pubkey short-circuits to
`None` before any network call; a transport `RuntimeError` (all URLs, all
retries exhausted) is caught at line 208 and becomes `None`; a `None` result
or a dict without an integer `value` field becomes `None` with a logged
warning (line 206); but a decoded result that is neither `None` nor a dict
makes `result.get("value")` at line 203 raise an `AttributeError`, which the
`except RuntimeError` handler does NOT catch — the failure propagates out of
the fetcher, modelled as `Except.error`. -/
def getBalanceRpc (pubkey : String) (res : Except Unit BalRes) : Except Unit (Option Int) :=
  if pubkey = "" then .ok none
  else
    match res with
    | .error _ => .ok none
    | .ok .null => .ok none
    | .ok .noValue => .ok none
    | .ok .notDict => .error ()
    | .ok (.value v) => .ok (some v)

/-- The balance value the aggregator consults for a pubkey (lines 512-513).
On the crashing shape (`notDict`) the real program aborts the whole run: the
`AttributeError` escapes `get_balance_rpc` and is caught only by the generic
`except Exception` handler at line 661, which returns `None` for the run.
The pipeline embedding keeps those crashing runs out of scope by reading the
crash as an absent balance here, so every record `process` returns coincides
with the program's on all inputs whose balance bodies are not of the crashing
shape; the crash path itself is settled against `getBalanceRpc` directly. -/
def balanceSeen (pubkey : String) (res : Except Unit BalRes) : Option Int :=
  match getBalanceRpc pubkey res with
  | .error _ => none
  | .ok v => v

/- ## Performance samples and epoch progress (lines 181-188 and 293-348) -/

/-- One entry of `getRecentPerformanceSamples`, with the fields the source
reads; a missing field is `none` (the source uses `dict.get`). -/
structure PerfSample where
  numSlots : Option Int
  samplePeriodSecs : Option Int
  deriving DecidableEq, Repr

/-- Raw decoded body of the samples RPC: either not a list (the source then
falls back to the empty list, line 187) or a list of samples. -/
inductive PerfRaw where
  | notList
  | list (xs : List PerfSample)
  deriving DecidableEq, Repr

/-- `get_recent_performance_samples_rpc`: a non-list result degrades to `[]`,
but a transport `RuntimeError` is NOT caught and propagates. -/
def getRecentPerformanceSamples (raw : Except Unit PerfRaw) : Except Unit (List PerfSample) :=
  match raw with
  | .error e => .error e
  | .ok .notList => .ok []
  | .ok (.list xs) => .ok xs

/-- Average slot time (lines 307-323): default 0.4 s; over the samples with
`numSlots > 0` and `samplePeriodSecs` present, `sum secs / sum slots` when the
slot total is positive.  (The source logs different warnings for an empty
fetch result and for no valid samples, but computes the same default.) -/
def avgSlotTime (samples : List PerfSample) : ℚ :=
  let valid := samples.filter (fun s => decide (0 < s.numSlots.getD 0) && s.samplePeriodSecs.isSome)
  if valid = [] then 2 / 5
  else
    let totalSlots : Int := (valid.map (fun s => s.numSlots.getD 0)).sum
    let totalSecs : Int := (valid.map (fun s => s.samplePeriodSecs.getD 0)).sum
    if 0 < totalSlots then (totalSecs : ℚ) / (totalSlots : ℚ) else 2 / 5

/-- The `divmod` cascade of lines 329-331: days, hours, minutes as floor
quotients and the leftover seconds in `[0, 60)`.  Python `divmod` on a
positive divisor is exactly rational floor division with nonnegative
remainder. -/
def timeComponents (t : ℚ) : Int × Int × Int × ℚ :=
  let days := ⌊t / 86400⌋
  let rem1 := t - 86400 * (days : ℚ)
  let hours := ⌊rem1 / 3600⌋
  let rem2 := rem1 - 3600 * (hours : ℚ)
  let minutes := ⌊rem2 / 60⌋
  let seconds := rem2 - 60 * (minutes : ℚ)
  (days, hours, minutes, seconds)

/-- The `'s' if int(n) != 1 else ''` suffix of lines 335-341. -/
def plural (n : Int) : String := if n = 1 then "" else "s"

/-- One rendered unit, e.g. `1 day` or `3 mins`. -/
def fmtUnit (n : Int) (unit : String) : String := toString n ++ " " ++ unit ++ plural n

/-- Remaining-time rendering (lines 333-346): append a part for every positive
unit among days, hours and minutes; append a seconds part only when no part
was collected and the leftover seconds are positive; when the part list is
still empty render the near-complete or calculating placeholder. -/
def formatRemaining (t pc : ℚ) : String :=
  let c := timeComponents t
  let days := c.1
  let hours := c.2.1
  let minutes := c.2.2.1
  let seconds := c.2.2.2
  let parts : List String := []
  let parts := if 0 < days then parts ++ [fmtUnit days "day"] else parts
  let parts := if 0 < hours then parts ++ [fmtUnit hours "hour"] else parts
  let parts := if 0 < minutes then parts ++ [fmtUnit minutes "min"] else parts
  let parts := if parts = [] ∧ 0 < seconds then [fmtUnit ⌊seconds⌋ "sec"] else parts
  if parts = [] then (if 999 / 10 < pc then "Nearly complete" else "Calculating...")
  else String.intercalate ", " parts

/-- Modelled from the spec words of the amended remaining-time claim: render
every non-zero unit among days, hours and minutes, comma separated in that
order; render seconds only when none of those is positive and the leftover
seconds are; otherwise the near-complete or calculating placeholder.  Compared
against `formatRemaining`, which is translated from the source. -/
def renderSpecUnits (t pc : ℚ) : String :=
  let c := timeComponents t
  let days := c.1
  let hours := c.2.1
  let minutes := c.2.2.1
  let seconds := c.2.2.2
  let parts :=
    (if 0 < days then [fmtUnit days "day"] else []) ++
    (if 0 < hours then [fmtUnit hours "hour"] else []) ++
    (if 0 < minutes then [fmtUnit minutes "min"] else [])
  if parts ≠ [] then String.intercalate ", " parts
  else if 0 < seconds then fmtUnit ⌊seconds⌋ "sec"
  else if 999 / 10 < pc then "Nearly complete" else "Calculating..."

/-- `getEpochInfo` fields the source reads, `none` when absent. -/
structure EpochInfo where
  epoch : Option Int
  slotIndex : Option Int
  slotsInEpoch : Option Int
  absoluteSlot : Option Int
  deriving DecidableEq, Repr

/-- `_calculate_epoch_progress` (lines 293-348): missing or zero slot fields
short-circuit to `(0, "Unknown")` before any samples fetch; otherwise the
samples are fetched (a transport error propagates as the `Except.error`),
the percent complete is `slotIndex / slotsInEpoch * 100` and the remaining
time is `(slotsInEpoch - slotIndex) * avgSlotTime` rendered as a string. -/
def calcEpochProgress (ei : EpochInfo) (raw : Except Unit PerfRaw) : Except Unit (ℚ × String) :=
  match ei.slotIndex, ei.slotsInEpoch with
  | some si, some se =>
    if se = 0 then .ok (0, "Unknown")
    else
      let pc : ℚ := ((si : ℚ) / (se : ℚ)) * 100
      match getRecentPerformanceSamples raw with
      | .error e => .error e
      | .ok samples =>
        let avg := avgSlotTime samples
        let t : ℚ := ((se - si : Int) : ℚ) * avg
        .ok (pc, formatRemaining t pc)
  | _, _ => .ok (0, "Unknown")

/- ## Stake metrics: `_calculate_stake_metrics_from_data` (lines 250-291) -/

/-- One stake account from the `solana stakes` CLI output; missing fields
default to 0 via `dict.get`. -/
structure StakeAccount where
  activeStake : Option Int
  delegatedStake : Option Int
  deactivatingStake : Option Int
  deriving DecidableEq, Repr

/-- The accumulation loop of lines 269-281, in lamports:
(active, delegated, activating, deactivating).  The source accumulates left
to right; integer addition is commutative and associative, so the structural
right fold computes the same totals. -/
def stakeTotals : List StakeAccount → Int × Int × Int × Int
  | [] => (0, 0, 0, 0)
  | a :: rest =>
    let r := stakeTotals rest
    let active := a.activeStake.getD 0
    let delegated := a.delegatedStake.getD 0
    let deact := a.deactivatingStake.getD 0
    let activating := delegated - active
    (active + r.1, delegated + r.2.1,
      (if 0 < activating then activating else 0) + r.2.2.1, deact + r.2.2.2)

/-- The five SOL figures returned by `_calculate_stake_metrics_from_data`. -/
structure StakeMetrics where
  total_active_stake_sol : ℚ
  total_delegated_stake_sol : ℚ
  stake_activating_sol : ℚ
  stake_deactivating_sol : ℚ
  net_stake_change_sol : ℚ
  deriving DecidableEq, Repr

def LAMPORTS_PER_SOL : ℚ := 1000000000

/-- `_calculate_stake_metrics_from_data`: empty input short-circuits to the
all-zero dictionary (lines 260-267); otherwise the lamport totals are divided
by `LAMPORTS_PER_SOL`, with the net change `activating - deactivating`
computed in lamports first (line 283). -/
def calculateStakeMetrics (stakeData : List StakeAccount) : StakeMetrics :=
  if stakeData = [] then ⟨0, 0, 0, 0, 0⟩
  else
    let t := stakeTotals stakeData
    { total_active_stake_sol := (t.1 : ℚ) / LAMPORTS_PER_SOL
      total_delegated_stake_sol := (t.2.1 : ℚ) / LAMPORTS_PER_SOL
      stake_activating_sol := (t.2.2.1 : ℚ) / LAMPORTS_PER_SOL
      stake_deactivating_sol := (t.2.2.2 : ℚ) / LAMPORTS_PER_SOL
      net_stake_change_sol := ((t.2.2.1 - t.2.2.2 : Int) : ℚ) / LAMPORTS_PER_SOL }

/- ## Vote accounts, credits and ranking (lines 416-489) -/

/-- One entry of the `getVoteAccounts` lists, with the fields the source
reads.  `epochCredits` is a list of integer tuples of the raw JSON shape
`[epoch, credits, previous_credits]`; tuples of other lengths are skipped by
the length-3 check of line 433. -/
structure VoteEntry where
  nodePubkey : String
  votePubkey : String
  activatedStake : Int
  epochCredits : List (List Int)
  deriving DecidableEq, Repr

/-- A processed validator: the original entry plus the derived cumulative
credits and credits earned this epoch (lines 426-441). -/
structure PV where
  entry : VoteEntry
  cumulative : Int
  earned : Int
  deriving DecidableEq, Repr

/-- The loop of lines 432-438: the first length-3 tuple whose epoch equals the
current epoch yields `(cumulative, cumulative - previous)`; otherwise zeros.
A missing `epoch` field (`none`) matches no tuple, as in Python where
`int == None` is false. -/
def findCredits (currentEpoch : Option Int) : List (List Int) → Int × Int
  | [] => (0, 0)
  | t :: rest =>
    match t with
    | [ep, cur, prev] =>
      if some ep = currentEpoch then (cur, cur - prev) else findCredits currentEpoch rest
    | _ => findCredits currentEpoch rest

/-- Lines 425-441: attach the derived credit fields to every entry of the
`current ++ delinquent` union. -/
def processedOf (currentEpoch : Option Int) (vs : List VoteEntry) : List PV :=
  vs.map (fun v =>
    { entry := v
      cumulative := (findCredits currentEpoch v.epochCredits).1
      earned := (findCredits currentEpoch v.epochCredits).2 })

/-- The descending-credits ordering used by the ranking sort. -/
def creditGE (a b : PV) : Prop := b.earned ≤ a.earned

instance : DecidableRel creditGE := fun a b => Int.decLe b.earned a.earned

instance : IsTotal PV creditGE := ⟨fun a b => le_total b.earned a.earned⟩

instance : IsTrans PV creditGE := ⟨fun _ _ _ h1 h2 => le_trans h2 h1⟩

/-- Lines 444-448: keep the entries with positive credits earned and sort them
descending by credits earned.  Python `sorted` is stable, so the stable
`insertionSort` computes the same list: among equal keys the input order is
preserved. -/
def rankedOf (pvs : List PV) : List PV :=
  List.insertionSort creditGE (pvs.filter (fun v => decide (0 < v.earned)))

/-- Search of lines 459-463 combined with the rank assignment of lines
454-455: the first ranked entry with the wanted node pubkey, together with its
1-based position, which is exactly the rank the source stored on it. -/
def findRankedAux (pk : String) : List PV → Nat → Option (Nat × PV)
  | [], _ => none
  | v :: rest, r => if v.entry.nodePubkey = pk then some (r, v) else findRankedAux pk rest (r + 1)

/-- Outcome of locating the target validator (lines 457-482): found ranked
with its rank, found only among all processed entries (rank `N/A`), or absent
everywhere, in which case the source synthesizes the placeholder dict
`{nodePubkey: configured key, votePubkey: "N/A", activatedStake: 0,
currentEpochCreditsEarned: 0, rank: "N/A"}`. -/
inductive Target where
  | ranked (rank : Nat) (v : PV)
  | unranked (v : PV)
  | placeholder
  deriving DecidableEq, Repr

def resolveTarget (pk : String) (ranked processed : List PV) : Target :=
  match findRankedAux pk ranked 1 with
  | some (r, v) => .ranked r v
  | none =>
    match processed.find? (fun v => decide (v.entry.nodePubkey = pk)) with
    | some v => .unranked v
    | none => .placeholder

/-- `our_validator_data.get("rank", "N/A")` (line 486); `none` is the `N/A`
sentinel. -/
def rankOf : Target → Option Nat
  | .ranked r _ => some r
  | .unranked _ => none
  | .placeholder => none

/-- `our_validator_data.get("nodePubkey", validator_identity_pubkey)`
(line 487): every found entry matched the configured key and the placeholder
carries it, so the configured key is also the fallback. -/
def targetIdentity (configIdentity : String) : Target → String
  | .ranked _ v => v.entry.nodePubkey
  | .unranked v => v.entry.nodePubkey
  | .placeholder => configIdentity

/-- `our_validator_data.get("votePubkey", "N/A")` (line 488). -/
def targetVote : Target → String
  | .ranked _ v => v.entry.votePubkey
  | .unranked v => v.entry.votePubkey
  | .placeholder => "N/A"

/-- `currentEpochCreditsEarned` of the resolved target (line 489).  The key is
present on every processed entry and on the placeholder, so the value is
always an integer and the `"N/A"` default of the source line is dead. -/
def targetEarned : Target → Int
  | .ranked _ v => v.earned
  | .unranked v => v.earned
  | .placeholder => 0

/-- `our_validator_data.get("activatedStake", 0)` (line 521). -/
def targetStake : Target → Int
  | .ranked _ v => v.entry.activatedStake
  | .unranked v => v.entry.activatedStake
  | .placeholder => 0

/-- Lines 540-542: credits earned by the rank-1 validator, 0 when the ranked
list is empty or its head has nonpositive credits. -/
def creditsRank1 : List PV → Int
  | [] => 0
  | top :: _ => if 0 < top.earned then top.earned else 0

/-- The missed-credits chain of lines 544-550.  `rank = none` models
`rank == "N/A"`; both target credits and rank-1 credits are always integers
(see `targetEarned`), so the `isinstance` guards of the source are always
true and are omitted.  The final fall-through of the source leaves the
initial `"N/A"`. -/
def computeMissedCredits (rank : Option Nat) (earnedCredits cr1 : Int) : Option Int :=
  if 0 < cr1 then some (cr1 - earnedCredits)
  else if cr1 = 0 ∧ 0 ≤ earnedCredits then some 0
  else if rank = none then none
  else none

/- ## Cluster nodes and registry info (lines 492-536) -/

/-- One entry of `getClusterNodes`, with the fields the source reads. -/
structure ClusterNode where
  pubkey : String
  version : Option String
  gossip : Option String
  deriving DecidableEq, Repr

/-- Lines 492-508: first node whose pubkey equals the resolved identity gives
the client version (default `N/A`) and the gossip address up to the first
colon; a falsy gossip value and an absent node both give `N/A`. -/
def nodeInfoFor (identity : String) (nodes : List ClusterNode) : String × String :=
  match nodes.find? (fun n => decide (n.pubkey = identity)) with
  | some n =>
    (n.version.getD "N/A",
      match n.gossip with
      | some g => if g = "" then "N/A" else (g.splitOn ":").headD ""
      | none => "N/A")
  | none => ("N/A", "N/A")

/-- One entry of the `validator-info get` CLI output. -/
structure VInfo where
  identityPubkey : String
  name : Option String
  deriving DecidableEq, Repr

/-- Lines 525-536: name of the matching registry entry, defaulting to
`Unknown` when the name field is missing; a literal `"null"` or empty name,
or no matching entry, or an empty registry list, all fall back to the
truncated identity. -/
def nameFor (identity : String) (infos : List VInfo) : String :=
  match infos.find? (fun vi => decide (vi.identityPubkey = identity)) with
  | some vi =>
    let nm := vi.name.getD "Unknown"
    if nm = "null" ∨ nm = "" then identity.take 12 ++ "..." else nm
  | none => identity.take 12 ++ "..."

/- ## Leader slot metrics (lines 558-625) -/

/-- Association lookup in a decoded JSON object (leader schedule keyed by
pubkey, or the `byIdentity` map of `getBlockProduction`). -/
def assocFind {α : Type} (k : String) : List (String × α) → Option α
  | [] => none
  | p :: rest => if p.1 = k then some p.2 else assocFind k rest

/-- The five leader-slot figures initialised to zero at lines 559-563. -/
structure LeaderM where
  total : Nat
  completed : Nat
  upcoming : Nat
  skipped : Int
  rate : ℚ
  deriving DecidableEq, Repr

/-- Lines 558-625.  Skipped entirely when the identity is the `N/A` sentinel;
a leader-schedule fetch `RuntimeError` (transport failure or non-dict shape)
is caught and leaves all five zeros; with a schedule, the totals come from the
slot list of the identity; block production is queried only when some
assigned slot is completed and the slot range is non-empty, its failure or a
malformed `byIdentity` entry leaving skipped and rate at zero. -/
def leaderMetrics (identity : String) (ei : EpochInfo)
    (sched blockProd : Except Unit (List (String × List Int))) : LeaderM :=
  if identity = "N/A" then ⟨0, 0, 0, 0, 0⟩ else
  match sched with
  | .error _ => ⟨0, 0, 0, 0, 0⟩
  | .ok schedMap =>
    let slots := (assocFind identity schedMap).getD []
    let total := slots.length
    if 0 < total then
      let curSlot := ei.slotIndex.getD 0
      let completed := (slots.filter (fun s => decide (s ≤ curSlot))).length
      let upcoming := total - completed
      let epochStart := ei.absoluteSlot.getD 0 - curSlot
      let curAbs := ei.absoluteSlot.getD 0
      if 0 < completed ∧ epochStart < curAbs then
        match blockProd with
        | .error _ => ⟨total, completed, upcoming, 0, 0⟩
        | .ok bpMap =>
          match assocFind identity bpMap with
          | some [assigned, produced] =>
            if 0 < assigned then
              ⟨total, completed, upcoming, assigned - produced,
                ((assigned - produced : Int) : ℚ) / (assigned : ℚ) * 100⟩
            else ⟨total, completed, upcoming, 0, 0⟩
          | _ => ⟨total, completed, upcoming, 0, 0⟩
      else ⟨total, completed, upcoming, 0, 0⟩
    else ⟨0, 0, 0, 0, 0⟩

/- ## The aggregator: `process_validator_data` (lines 351-663) -/

/-- The per-cluster configuration the aggregator resolves first. -/
structure Config where
  cluster : String
  identity : String
  deriving DecidableEq, Repr

/-- The frozen fetch responses of one run.  The critical fetches
(vote accounts, registry info, epoch info, stake accounts, cluster nodes) are
given as already-decoded values: their transport failure aborts the run before
any of the logic modelled here.  The non-critical fetches keep their failure
mode.  `balanceRes` freezes the `getBalance` response per pubkey. -/
structure Inputs where
  voteCurrent : List VoteEntry
  voteDelinquent : List VoteEntry
  validatorInfos : List VInfo
  epochInfo : EpochInfo
  stakeAccounts : List StakeAccount
  clusterNodes : List ClusterNode
  perfSamples : Except Unit PerfRaw
  leaderSchedule : Except Unit (List (String × List Int))
  blockProduction : Except Unit (List (String × List Int))
  balanceRes : String → Except Unit BalRes

/-- The dictionary returned at lines 630-656.  `none` stands for the `N/A`
sentinel in the optional fields. -/
structure StatusRecord where
  cluster_shorthand : String
  validator_name : String
  active_stake_sol : ℚ
  current_epoch : Option Int
  epoch_percent_complete : ℚ
  time_left_in_epoch : String
  rank : Option Nat
  epoch_credits : Int
  missed_credits : Option Int
  identity_pubkey : String
  vote_account_pubkey : String
  identity_balance_sol : Option ℚ
  vote_account_balance_sol : Option ℚ
  validator_version : String
  validator_ip : String
  total_active_stake_sol : ℚ
  total_delegated_stake_sol : ℚ
  stake_activating_sol : ℚ
  stake_deactivating_sol : ℚ
  net_stake_change_sol : ℚ
  leader_slots_total : Nat
  leader_slots_completed : Nat
  leader_slots_upcoming : Nat
  leader_slots_skipped : Int
  leader_skip_rate : ℚ
  deriving DecidableEq, Repr

/-- Assembly of the status record given the already-computed epoch progress
pair (steps 2-4 and 6-10 of the pipeline). -/
def buildRecord (cfg : Config) (i : Inputs) (pc : ℚ) (timeLeft : String) : StatusRecord :=
  let processed := processedOf i.epochInfo.epoch (i.voteCurrent ++ i.voteDelinquent)
  let ranked := rankedOf processed
  let tgt := resolveTarget cfg.identity ranked processed
  let rank := rankOf tgt
  let identity := targetIdentity cfg.identity tgt
  let voteAccount := targetVote tgt
  let earnedCredits := targetEarned tgt
  let nodeInfo := nodeInfoFor identity i.clusterNodes
  let identityBalance := if identity = "N/A" then none
    else balanceSeen identity (i.balanceRes identity)
  let voteBalance := if voteAccount = "N/A" then none
    else balanceSeen voteAccount (i.balanceRes voteAccount)
  let sm := calculateStakeMetrics i.stakeAccounts
  let lm := leaderMetrics identity i.epochInfo i.leaderSchedule i.blockProduction
  { cluster_shorthand := cfg.cluster
    validator_name := nameFor identity i.validatorInfos
    active_stake_sol := ((targetStake tgt : Int) : ℚ) / LAMPORTS_PER_SOL
    current_epoch := i.epochInfo.epoch
    epoch_percent_complete := pc
    time_left_in_epoch := timeLeft
    rank := rank
    epoch_credits := earnedCredits
    missed_credits := computeMissedCredits rank earnedCredits (creditsRank1 ranked)
    identity_pubkey := identity
    vote_account_pubkey := voteAccount
    identity_balance_sol := identityBalance.map (fun v => (v : ℚ) / LAMPORTS_PER_SOL)
    vote_account_balance_sol := voteBalance.map (fun v => (v : ℚ) / LAMPORTS_PER_SOL)
    validator_version := nodeInfo.1
    validator_ip := nodeInfo.2
    total_active_stake_sol := sm.total_active_stake_sol
    total_delegated_stake_sol := sm.total_delegated_stake_sol
    stake_activating_sol := sm.stake_activating_sol
    stake_deactivating_sol := sm.stake_deactivating_sol
    net_stake_change_sol := sm.net_stake_change_sol
    leader_slots_total := lm.total
    leader_slots_completed := lm.completed
    leader_slots_upcoming := lm.upcoming
    leader_slots_skipped := lm.skipped
    leader_skip_rate := lm.rate }

/-- `process_validator_data` on frozen fetch responses.  The only uncaught
exception among the steps modelled here is the samples-fetch `RuntimeError`
escaping `_calculate_epoch_progress` (line 555): it is caught by the
top-level handler of line 658, which returns `None`. -/
def process (cfg : Config) (i : Inputs) : Option StatusRecord :=
  match calcEpochProgress i.epochInfo i.perfSamples with
  | .error _ => none
  | .ok (pc, timeLeft) => some (buildRecord cfg i pc timeLeft)

/- ## Concrete fixtures used by witnesses and counterexamples -/

/-- An RPC outcome oracle on which every URL fails on every pass. -/
def failingOutcome : Nat → String → Except String Nat := fun _ _ => .error "boom"

/-- A top validator `T` earning 100 credits in epoch 1. -/
def cexTopEntry : VoteEntry := ⟨"T", "TV", 0, [[1, 100, 0]]⟩

/-- The target validator `ME` earning 0 credits in epoch 1 (cumulative 7,
previous 7), hence excluded from ranking. -/
def cexTargetEntry : VoteEntry := ⟨"ME", "MEV", 0, [[1, 7, 7]]⟩

/-- Benign baseline inputs: empty collections, epoch 1 with the slot fields
absent (so the progress step short-circuits to `Unknown`), failed non-critical
fetches, failing balance endpoint. -/
def baseInputs : Inputs where
  voteCurrent := []
  voteDelinquent := []
  validatorInfos := []
  epochInfo := ⟨some 1, none, none, none⟩
  stakeAccounts := []
  clusterNodes := []
  perfSamples := .ok .notList
  leaderSchedule := .error ()
  blockProduction := .error ()
  balanceRes := fun _ => .error ()

/-- Configuration targeting validator identity `ME` on cluster `um`. -/
def cfgME : Config := ⟨"um", "ME"⟩

/-- Inputs where the target is present but unranked while another validator
tops the ranking with 100 credits. -/
def inputsC2 : Inputs := { baseInputs with voteCurrent := [cexTopEntry, cexTargetEntry] }

/-- Inputs with valid slot fields and a failed performance-samples fetch. -/
def inputsC3 : Inputs :=
  { baseInputs with
    epochInfo := ⟨some 1, some 1, some 10, some 100⟩
    perfSamples := .error () }

/-- Inputs where the target validator is absent from both vote-account lists. -/
def inputsC4 : Inputs := { baseInputs with voteCurrent := [cexTopEntry] }

/-- Epoch info used by the remaining-time counterexample: 1 of 2 slots done. -/
def epochInfoC7 : EpochInfo := ⟨some 1, some 1, some 2, some 100⟩

/-- One performance sample: 1 slot over 90060 seconds, so the average slot
time is 90060 s and one remaining slot yields exactly 1 day, 1 hour, 1 min. -/
def sampleC7 : PerfSample := ⟨some 1, some 90060⟩

/-- A target validator entry used by witness runs: ranked, stake 5 lamports. -/
def wEntry : VoteEntry := ⟨"ME", "MEV", 5, [[1, 10, 0]]⟩

/-- Witness inputs: target ranked, a leader schedule with two slots for it,
balances available. -/
def inputsW : Inputs :=
  { baseInputs with
    voteCurrent := [wEntry]
    leaderSchedule := .ok [("ME", [3, 4])]
    blockProduction := .error ()
    balanceRes := fun _ => .ok (.value 7) }

/-- The record the witness run produces. -/
def recW : StatusRecord := buildRecord cfgME inputsW 0 "Unknown"

/-- The sample list carried by a successfully decoded samples body. -/
def rawList : PerfRaw → List PerfSample
  | .notList => []
  | .list xs => xs

/-- Validator A of the ranking example: 50 credits earned in epoch 1. -/
def exA : VoteEntry := ⟨"A", "AV", 0, [[1, 50, 0]]⟩

/-- Validator B of the ranking example: 0 credits earned. -/
def exB : VoteEntry := ⟨"B", "BV", 0, [[1, 0, 0]]⟩

/-- Validator C of the ranking example: 100 credits earned. -/
def exC : VoteEntry := ⟨"C", "CV", 0, [[1, 100, 0]]⟩

/-- Validator D of the ranking example: -5 credits earned (cumulative 0 after
previous 5). -/
def exD : VoteEntry := ⟨"D", "DV", 0, [[1, 0, 5]]⟩

/-- Validator E of the ranking example: 100 credits earned, tied with C but
later in input order. -/
def exE : VoteEntry := ⟨"E", "EV", 0, [[1, 100, 0]]⟩

/-- The ranking example list with credits earned [50, 0, 100, -5, 100]. -/
def exEntries : List VoteEntry := [exA, exB, exC, exD, exE]

/- ## Helper lemmas: transport layer -/

/-- Key list of a Python dict after `d[k] = v`: unchanged when the key is
present, extended at the end otherwise. -/
theorem dictInsert_keys (k v : String) (l : ErrMap) :
    (dictInsert k v l).map Prod.fst =
      if k ∈ l.map Prod.fst then l.map Prod.fst else l.map Prod.fst ++ [k] := by
  induction l with
  | nil => simp [dictInsert]
  | cons p rest ih =>
    simp only [dictInsert, List.map_cons]
    by_cases hp : p.1 = k
    · simp [hp]
    · have hk' : ¬ k = p.1 := fun h => hp h.symm
      by_cases hk : k ∈ rest.map Prod.fst
      · simp [hp, hk, hk', ih, List.mem_cons]
      · simp [hp, hk, hk', ih, List.mem_cons]

/-- A fully failed pass over the URL list: the attempt counter advances by the
number of URLs, no value is produced, and the error-map keys are extended by
exactly the URLs not yet present, in order. -/
theorem tryUrls_fail {V : Type} (outcome : Nat → String → Except String V) (a : Nat)
    (hfail : ∀ u, ∃ e, outcome a u = .error e) :
    ∀ (urls : List String) (att : Nat) (errs : ErrMap), urls.Nodup →
      ∃ errs', tryUrls outcome a urls att errs = (att + urls.length, errs', none) ∧
        errs'.map Prod.fst =
          errs.map Prod.fst ++ urls.filter (fun u => !decide (u ∈ errs.map Prod.fst)) := by
  intro urls
  induction urls with
  | nil => exact fun att errs _ => ⟨errs, by simp [tryUrls], by simp⟩
  | cons u rest ih =>
    intro att errs hnd
    obtain ⟨e, he⟩ := hfail u
    have hnd' := List.nodup_cons.mp hnd
    obtain ⟨errs', h1, h2⟩ := ih (att + 1) (dictInsert u e errs) hnd'.2
    refine ⟨errs', ?_, ?_⟩
    · have hstep : tryUrls outcome a (u :: rest) att errs
          = tryUrls outcome a rest (att + 1) (dictInsert u e errs) := by
        simp [tryUrls, he]
      rw [hstep, h1]
      have : att + 1 + rest.length = att + (u :: rest).length := by
        simp [List.length_cons]; omega
      rw [this]
    · rw [h2, dictInsert_keys]
      by_cases hu : u ∈ errs.map Prod.fst
      · simp only [if_pos hu]
        simp [List.filter_cons, hu]
      · have hcong : ∀ x ∈ rest,
            (!decide (x ∈ (errs.map Prod.fst ++ [u]))) = (!decide (x ∈ errs.map Prod.fst)) := by
          intro x hx
          have hxu : ¬ x = u := fun h => hnd'.1 (h ▸ hx)
          simp [List.mem_append, hxu]
        simp only [if_neg hu]
        rw [List.filter_congr hcong, List.append_assoc]
        simp [List.filter_cons, hu]

/-- One-step unfolding of the retry loop. -/
theorem rpcLoop_succ {V : Type} (outcome : Nat → String → Except String V)
    (urls : List String) (delay fuel aIdx att : Nat) (slept : List Nat) (errs : ErrMap) :
    rpcLoop outcome urls delay (fuel + 1) aIdx att slept errs =
      match tryUrls outcome aIdx urls att errs with
      | (att', _, some v) => ⟨att', slept, .ok v⟩
      | (att', errs', none) =>
        if fuel = 0 then ⟨att', slept, .error errs'⟩
        else rpcLoop outcome urls delay fuel (aIdx + 1) att' (slept ++ [delay]) errs' := rfl

/-- A fully failing run of the retry loop with `fuel ≥ 1` passes left: the
attempt counter advances by `urls × fuel`, exactly `fuel - 1` sleeps of the
configured delay are appended, and the final error map holds one entry per
distinct URL. -/
theorem rpcLoop_fail {V : Type} (outcome : Nat → String → Except String V)
    (urls : List String) (delay : Nat) (hnd : urls.Nodup)
    (hfail : ∀ a u, ∃ e, outcome a u = .error e) :
    ∀ (fuel aIdx att : Nat) (slept : List Nat) (errs : ErrMap), 0 < fuel →
      ∃ errs', rpcLoop outcome urls delay fuel aIdx att slept errs =
          ⟨att + urls.length * fuel, slept ++ List.replicate (fuel - 1) delay, .error errs'⟩ ∧
        errs'.map Prod.fst =
          errs.map Prod.fst ++ urls.filter (fun u => !decide (u ∈ errs.map Prod.fst)) := by
  intro fuel
  induction fuel with
  | zero => intro _ _ _ _ h; exact absurd h (lt_irrefl 0)
  | succ n ih =>
    intro aIdx att slept errs _
    obtain ⟨errs1, h1, h2⟩ := tryUrls_fail outcome aIdx (fun u => hfail aIdx u) urls att errs hnd
    by_cases hn : n = 0
    · subst hn
      refine ⟨errs1, ?_, h2⟩
      rw [rpcLoop_succ, h1]
      simp
    · have hn' : 0 < n := Nat.pos_of_ne_zero hn
      obtain ⟨m, rfl⟩ : ∃ m, n = m + 1 := ⟨n - 1, (Nat.succ_pred_eq_of_pos hn').symm⟩
      obtain ⟨errs', h3, h4⟩ := ih (aIdx + 1) (att + urls.length) (slept ++ [delay]) errs1 hn'
      refine ⟨errs', ?_, ?_⟩
      · have harith : att + urls.length + urls.length * (m + 1) = att + urls.length * (m + 1 + 1) := by
          ring
        have hrep : [delay] ++ List.replicate (m + 1 - 1) delay = List.replicate (m + 1) delay := by
          simp [List.replicate_succ]
        rw [rpcLoop_succ, h1]
        dsimp only
        rw [if_neg hn, h3, List.append_assoc, hrep, harith]
        simp
      · rw [h4, h2]
        have hnil : urls.filter (fun u =>
            !decide (u ∈ (errs.map Prod.fst ++
              urls.filter (fun x => !decide (x ∈ errs.map Prod.fst))))) = [] := by
          rw [List.filter_eq_nil_iff]
          intro u hu
          have hmem : u ∈ errs.map Prod.fst ++
              urls.filter (fun x => !decide (x ∈ errs.map Prod.fst)) := by
            by_cases h : u ∈ errs.map Prod.fst
            · exact List.mem_append.mpr (Or.inl h)
            · exact List.mem_append.mpr (Or.inr (List.mem_filter.mpr ⟨hu, by simp [h]⟩))
          simp [hmem]
        rw [hnil, List.append_nil]

/-- Claim C1: with an ordered endpoint list of n distinct URLs and
`A = maxRetries + 1` total passes, when every endpoint fails on every try the
transport makes exactly `n * A` individual call attempts (each pass covering
the whole list in order), sleeps exactly `A - 1` times for the configured
delay, and fails with a consolidated error carrying one failure summary per
endpoint, keyed by the endpoints in order. -/
theorem C1_transport_retry {V : Type} (outcome : Nat → String → Except String V)
    (urls : List String) (maxRetries delay : Nat)
    (_hne : urls ≠ []) (hnd : urls.Nodup)
    (hfail : ∀ a u, ∃ e, outcome a u = .error e) :
    (makeRpcRequest outcome urls maxRetries delay).attempts = urls.length * (maxRetries + 1) ∧
    (makeRpcRequest outcome urls maxRetries delay).sleepLog = List.replicate maxRetries delay ∧
    ∃ errs, (makeRpcRequest outcome urls maxRetries delay).result = .error errs ∧
      errs.map Prod.fst = urls := by
  obtain ⟨errs', h1, h2⟩ :=
    rpcLoop_fail outcome urls delay hnd hfail (maxRetries + 1) 0 0 [] [] (Nat.succ_pos _)
  rw [makeRpcRequest, h1]
  refine ⟨by simp, by simp, errs', rfl, ?_⟩
  rw [h2]
  simp

/-- Witness for C1 at two endpoints and one configured retry: 4 attempts, one
sleep of 5 seconds, and a summary for each of the two URLs. -/
theorem C1_transport_retry_witness :
    (["u1", "u2"] : List String) ≠ [] ∧ (["u1", "u2"] : List String).Nodup ∧
    (makeRpcRequest failingOutcome ["u1", "u2"] 1 5).attempts = ["u1", "u2"].length * (1 + 1) ∧
    (makeRpcRequest failingOutcome ["u1", "u2"] 1 5).sleepLog = List.replicate 1 5 ∧
    ∃ errs, (makeRpcRequest failingOutcome ["u1", "u2"] 1 5).result = .error errs ∧
      errs.map Prod.fst = ["u1", "u2"] := by
  have h := C1_transport_retry failingOutcome ["u1", "u2"] 1 5 (by decide) (by decide)
    (fun _ _ => ⟨"boom", rfl⟩)
  exact ⟨by decide, by decide, h.1, h.2.1, h.2.2⟩

/- ## Helper lemmas: pipeline plumbing -/

/-- Joining a single part is that part. -/
theorem intercalate_singleton (s a : String) : String.intercalate s [a] = a := rfl

/-- A successfully decoded samples body yields its sample list. -/
theorem getRecentPerformanceSamples_ok (raw : PerfRaw) :
    getRecentPerformanceSamples (.ok raw) = .ok (rawList raw) := by
  cases raw <;> rfl

/-- When the samples fetch succeeds, the epoch-progress step cannot raise. -/
theorem calcEpochProgress_ok (ei : EpochInfo) (raw : PerfRaw) :
    ∃ p, calcEpochProgress ei (.ok raw) = .ok p := by
  rcases hsi : ei.slotIndex with _ | si <;> rcases hse : ei.slotsInEpoch with _ | se <;>
    simp only [calcEpochProgress, hsi, hse, getRecentPerformanceSamples_ok]
  · exact ⟨_, rfl⟩
  · exact ⟨_, rfl⟩
  · exact ⟨_, rfl⟩
  · by_cases h : se = 0
    · rw [if_pos h]; exact ⟨_, rfl⟩
    · rw [if_neg h]; exact ⟨_, rfl⟩

/-- When the samples fetch succeeds the run completes with the assembled
record. -/
theorem process_ok (cfg : Config) (i : Inputs) (raw : PerfRaw) (h : i.perfSamples = .ok raw) :
    ∃ pc tl, calcEpochProgress i.epochInfo i.perfSamples = .ok (pc, tl) ∧
      process cfg i = some (buildRecord cfg i pc tl) := by
  obtain ⟨⟨pc, tl⟩, hp⟩ := calcEpochProgress_ok i.epochInfo raw
  rw [← h] at hp
  exact ⟨pc, tl, hp, by simp only [process, hp]⟩

/-- The ranked search misses when no entry carries the wanted pubkey. -/
theorem findRankedAux_none (pk : String) :
    ∀ (l : List PV) (r : Nat), (∀ v ∈ l, v.entry.nodePubkey ≠ pk) →
      findRankedAux pk l r = none := by
  intro l
  induction l with
  | nil => intro r _; rfl
  | cons v rest ih =>
    intro r h
    rw [findRankedAux, if_neg (h v (List.mem_cons_self v rest))]
    exact ih (r + 1) (fun w hw => h w (List.mem_cons_of_mem v hw))

/-- A hit of the ranked search carries the wanted pubkey. -/
theorem findRankedAux_some (pk : String) :
    ∀ (l : List PV) (r₀ r : Nat) (v : PV), findRankedAux pk l r₀ = some (r, v) →
      v.entry.nodePubkey = pk := by
  intro l
  induction l with
  | nil => intro r₀ r v h; simp [findRankedAux] at h
  | cons w rest ih =>
    intro r₀ r v h
    rw [findRankedAux] at h
    by_cases hw : w.entry.nodePubkey = pk
    · rw [if_pos hw] at h
      obtain ⟨-, rfl⟩ : r₀ = r ∧ w = v := by simpa using h
      exact hw
    · rw [if_neg hw] at h
      exact ih (r₀ + 1) r v h

/-- Whatever the search outcome, the resolved identity is the configured key:
a found entry matched it and the placeholder carries it. -/
theorem targetIdentity_resolve (pk : String) (ranked processed : List PV) :
    targetIdentity pk (resolveTarget pk ranked processed) = pk := by
  unfold resolveTarget
  cases hfr : findRankedAux pk ranked 1 with
  | some p =>
    obtain ⟨r, v⟩ := p
    have hv := findRankedAux_some pk ranked 1 r v hfr
    simp [targetIdentity, hv]
  | none =>
    cases hfp : processed.find? (fun v => decide (v.entry.nodePubkey = pk)) with
    | some v =>
      have hv := List.find?_some hfp
      simp only [decide_eq_true_eq] at hv
      simp [targetIdentity, hv]
    | none => simp [targetIdentity]

/-- A failed leader-schedule fetch leaves all five leader figures zero. -/
theorem leaderMetrics_sched_error (identity : String) (ei : EpochInfo)
    (bp : Except Unit (List (String × List Int))) :
    leaderMetrics identity ei (.error ()) bp = ⟨0, 0, 0, 0, 0⟩ := by
  by_cases h : identity = "N/A" <;> simp [leaderMetrics, h]

/-- A failed block-production fetch leaves skipped and rate zero. -/
theorem leaderMetrics_bp_error (identity : String) (ei : EpochInfo)
    (sched : Except Unit (List (String × List Int))) :
    (leaderMetrics identity ei sched (.error ())).skipped = 0 ∧
    (leaderMetrics identity ei sched (.error ())).rate = 0 := by
  by_cases h : identity = "N/A"
  · simp [leaderMetrics, h]
  · cases sched with
    | error e => simp [leaderMetrics, h]
    | ok m =>
      simp only [leaderMetrics, if_neg h]
      split
      · split
        · exact ⟨rfl, rfl⟩
        · exact ⟨rfl, rfl⟩
      · exact ⟨rfl, rfl⟩

/-- With a schedule in hand the total is always the length of the slot list
of the identity. -/
theorem leaderMetrics_total (identity : String) (ei : EpochInfo)
    (m : List (String × List Int)) (bp : Except Unit (List (String × List Int)))
    (hna : identity ≠ "N/A") :
    (leaderMetrics identity ei (.ok m) bp).total =
      ((assocFind identity m).getD []).length := by
  simp only [leaderMetrics, if_neg hna]
  split
  · split
    · split
      · rfl
      · split <;> first
          | rfl
          | (split <;> rfl)
    · rfl
  · next ht => exact (Nat.eq_zero_of_not_pos ht).symm

/-- The activating accumulator is the sum of the positive parts of
delegated minus active. -/
theorem stakeTotals_activating (l : List StakeAccount) :
    (stakeTotals l).2.2.1 =
      (l.map (fun a => max 0 (a.delegatedStake.getD 0 - a.activeStake.getD 0))).sum := by
  induction l with
  | nil => simp [stakeTotals]
  | cons a rest ih =>
    have hx : (if 0 < a.delegatedStake.getD 0 - a.activeStake.getD 0
          then a.delegatedStake.getD 0 - a.activeStake.getD 0 else 0) =
        max 0 (a.delegatedStake.getD 0 - a.activeStake.getD 0) := by
      rcases le_or_lt (a.delegatedStake.getD 0 - a.activeStake.getD 0) 0 with h | h
      · rw [if_neg (not_lt.mpr h), max_eq_left h]
      · rw [if_pos h, max_eq_right h.le]
    simp only [stakeTotals, List.map_cons, List.sum_cons, ih, hx]

/- ## Claim theorems -/

/-- Counterexample to claim C10 as stated: for the non-empty pubkey `ME` and
a decoded result that is not `None` and not a dict — a shape without an
integer `value` field — the fetcher does NOT return the absent value:
`result.get("value")` at line 203 raises an `AttributeError` that the
`except RuntimeError` handler of line 208 does not catch, so the failure
propagates (and aborts the aggregation run via the generic handler of
line 661). -/
theorem C10_counterexample :
    getBalanceRpc "ME" (.ok .notDict) = .error () ∧
    getBalanceRpc "ME" (.ok .notDict) ≠ .ok none :=
  ⟨rfl, fun h => Except.noConfusion h⟩

/-- Claim C10 (amended): for every non-empty pubkey the fetcher returns the
absent value on exactly the consolidated transport error (caught at line
208), a `None` result, and a dict without an integer `value` field; it
returns the balance exactly on a dict with an integer `value` field; and it
raises (an `AttributeError` propagating out of the fetcher) exactly on a
decoded result that is neither `None` nor a dict — so only a total
balance-RPC TRANSPORT outage is harmless on its own, not every malformed
body. -/
theorem C10_balance_amended (pubkey : String) (res : Except Unit BalRes)
    (hpk : pubkey ≠ "") :
    (res = .error () → getBalanceRpc pubkey res = .ok none) ∧
    (getBalanceRpc pubkey res = .ok none ↔
      res = .error () ∨ res = .ok .null ∨ res = .ok .noValue) ∧
    (getBalanceRpc pubkey res = .error () ↔ res = .ok .notDict) ∧
    (∀ v, getBalanceRpc pubkey res = .ok (some v) ↔ res = .ok (.value v)) := by
  refine ⟨fun h => by rw [h]; simp [getBalanceRpc, hpk], ?_, ?_, ?_⟩
  · rcases res with e | b
    · simp [getBalanceRpc, hpk]
    · cases b <;> simp [getBalanceRpc, hpk]
  · rcases res with e | b
    · simp [getBalanceRpc, hpk]
    · cases b <;> simp [getBalanceRpc, hpk]
  · intro v
    rcases res with e | b
    · simp [getBalanceRpc, hpk]
    · cases b <;> simp [getBalanceRpc, hpk]

/-- Witness for C10 (amended) at the pubkey `ME`: the transport error yields
the absent value and the non-dict body yields the propagating failure. -/
theorem C10_balance_amended_witness :
    ("ME" : String) ≠ "" ∧
    ((.error () : Except Unit BalRes) = .error () →
      getBalanceRpc "ME" (.error ()) = .ok none) ∧
    (getBalanceRpc "ME" (.ok .notDict) = .error () ↔
      (.ok .notDict : Except Unit BalRes) = .ok .notDict) := by
  have h1 := C10_balance_amended "ME" (.error ()) (by decide)
  have h2 := C10_balance_amended "ME" (.ok .notDict) (by decide)
  exact ⟨by decide, h1.1, h2.2.2.1⟩

/-- Claim C6: for every stake-account list (missing fields defaulting to 0),
the snapshot satisfies activating = (sum of max 0 (delegated - active)) over
the accounts, converted to SOL by the fixed divisor; net change equals
activating minus deactivating; and the empty list yields the all-zero
snapshot. -/
theorem C6_stake_metrics (l : List StakeAccount) :
    (calculateStakeMetrics l).stake_activating_sol =
      (((l.map (fun a => max 0 (a.delegatedStake.getD 0 - a.activeStake.getD 0))).sum : Int) : ℚ) /
        LAMPORTS_PER_SOL ∧
    (calculateStakeMetrics l).net_stake_change_sol =
      (calculateStakeMetrics l).stake_activating_sol -
        (calculateStakeMetrics l).stake_deactivating_sol ∧
    calculateStakeMetrics [] = ⟨0, 0, 0, 0, 0⟩ := by
  refine ⟨?_, ?_, by simp [calculateStakeMetrics]⟩
  · by_cases h : l = []
    · subst h
      simp [calculateStakeMetrics]
    · simp only [calculateStakeMetrics, if_neg h]
      rw [← stakeTotals_activating]
  · by_cases h : l = []
    · subst h
      simp [calculateStakeMetrics]
    · simp only [calculateStakeMetrics, if_neg h]
      push_cast
      ring

/-- Counterexample to claim C2 as stated: in this run the target validator is
found only in the unranked set, so its rank is the `N/A` sentinel, yet the
missed-credits field is `100 - 0 = 100` (the top-ranked entry has 100
credits), not the `N/A` sentinel the claim requires for every unranked
target. -/
theorem C2_counterexample :
    (process cfgME inputsC2).map (fun r => (r.rank, r.missed_credits)) =
      some ((none : Option Nat), some 100) := by decide

/-- Claim C2 (amended): the missed-credits value is independent of the rank
sentinel.  With the top credits taken from the ranked list: when positive,
missed = top - target (whether the target is ranked or unranked); when zero
(equivalently, no ranked entries), missed = 0 when the target credits are
nonnegative and the `N/A` sentinel exactly when they are negative.  The
ranked-and-top-positive and the top-zero-with-nonnegative-target parts of the
original claim hold; the unranked part holds only in the negative-credits,
no-ranked-entries corner. -/
theorem C2_missed_credits_amended (rank : Option Nat) (earnedCredits : Int) (ranked : List PV) :
    computeMissedCredits rank earnedCredits (creditsRank1 ranked) =
      if 0 < creditsRank1 ranked then some (creditsRank1 ranked - earnedCredits)
      else if 0 ≤ earnedCredits then some 0
      else none := by
  have hz : ∀ r : Option Nat, computeMissedCredits r earnedCredits 0 =
      if 0 ≤ earnedCredits then some 0 else none := by
    intro r
    by_cases he : 0 ≤ earnedCredits
    · simp [computeMissedCredits, he]
    · simp [computeMissedCredits, he]
  cases ranked with
  | nil =>
    simp only [creditsRank1, hz]
    rw [if_neg (lt_irrefl (0 : Int))]
  | cons top rest =>
    by_cases ht : 0 < top.earned
    · simp [creditsRank1, ht, computeMissedCredits]
    · simp only [creditsRank1, if_neg ht, hz]
      rw [if_neg (lt_irrefl 0)]

/-- Claim C8: determinism.  The embedding of the aggregator is a pure function
of the frozen fetch responses (the source consults no wall clock: even the
remaining-time string derives from the fetched slot counts and samples), so
two runs over identical responses produce identical status records. -/
theorem C8_deterministic (cfg : Config) (i1 i2 : Inputs) (h : i1 = i2) :
    process cfg i1 = process cfg i2 := by rw [h]

/-- Witness for C8: a run repeated on the same frozen inputs. -/
theorem C8_deterministic_witness : process cfgME inputsW = process cfgME inputsW :=
  C8_deterministic cfgME inputsW inputsW rfl

/-- Claim C5: rank assignment.  For every processed list, the ranked list is a
permutation of exactly the entries with positive credits earned and is sorted
descending by credits earned; the sort is stable (the stable insertion sort
models the stable Python sort), so ties keep input order, and 1-based ranks
are positions in the ranked list.  On the example credits [50, 0, 100, -5,
100] for validators A..E, the ranked order is C (idx 2), E (idx 4), A (idx 0)
with ranks 1, 2, 3 — the C-E tie keeps input order — while B (0) and D (-5)
are excluded from ranking and resolve as unranked. -/
theorem C5_ranking :
    (∀ pvs : List PV, (rankedOf pvs).Perm (pvs.filter (fun v => decide (0 < v.earned)))) ∧
    (∀ pvs : List PV, List.Sorted creditGE (rankedOf pvs)) ∧
    (rankedOf (processedOf (some 1) exEntries)).map (fun v => v.entry.nodePubkey) =
      ["C", "E", "A"] ∧
    (findRankedAux "C" (rankedOf (processedOf (some 1) exEntries)) 1).map Prod.fst = some 1 ∧
    (findRankedAux "E" (rankedOf (processedOf (some 1) exEntries)) 1).map Prod.fst = some 2 ∧
    (findRankedAux "A" (rankedOf (processedOf (some 1) exEntries)) 1).map Prod.fst = some 3 ∧
    rankOf (resolveTarget "B" (rankedOf (processedOf (some 1) exEntries))
      (processedOf (some 1) exEntries)) = none ∧
    rankOf (resolveTarget "D" (rankedOf (processedOf (some 1) exEntries))
      (processedOf (some 1) exEntries)) = none := by
  refine ⟨fun pvs => List.perm_insertionSort creditGE _,
    fun pvs => List.sorted_insertionSort creditGE _, ?_, ?_, ?_, ?_, ?_, ?_⟩ <;> decide

/-- Claim C4: when the target validator is absent from both vote-account
lists (and the samples fetch does not raise), the run still completes with a
record built from the synthesized placeholder: rank is the unranked sentinel,
activated stake and epoch credits are zero, the vote pubkey is the `N/A`
sentinel, and the identity is the configured key. -/
theorem C4_absent_target (cfg : Config) (i : Inputs) (raw : PerfRaw)
    (hperf : i.perfSamples = .ok raw)
    (habs : ∀ v ∈ i.voteCurrent ++ i.voteDelinquent, v.nodePubkey ≠ cfg.identity) :
    (process cfg i).map (fun r => (r.rank, r.active_stake_sol, r.epoch_credits,
      r.vote_account_pubkey, r.identity_pubkey)) =
      some (none, 0, 0, "N/A", cfg.identity) := by
  obtain ⟨pc, tl, hp, hproc⟩ := process_ok cfg i raw hperf
  have hpm : ∀ v ∈ processedOf i.epochInfo.epoch (i.voteCurrent ++ i.voteDelinquent),
      v.entry.nodePubkey ≠ cfg.identity := by
    intro v hv
    obtain ⟨orig, ho, hv'⟩ := List.mem_map.mp hv
    subst hv'
    exact habs orig ho
  have hrm : ∀ v ∈ rankedOf (processedOf i.epochInfo.epoch (i.voteCurrent ++ i.voteDelinquent)),
      v.entry.nodePubkey ≠ cfg.identity := by
    intro v hv
    have hv2 := (List.perm_insertionSort creditGE _).mem_iff.mp hv
    exact hpm v (List.mem_filter.mp hv2).1
  have hfp : (processedOf i.epochInfo.epoch (i.voteCurrent ++ i.voteDelinquent)).find?
      (fun v => decide (v.entry.nodePubkey = cfg.identity)) = none :=
    List.find?_eq_none.mpr (fun v hv => by simp [hpm v hv])
  have hres : resolveTarget cfg.identity
      (rankedOf (processedOf i.epochInfo.epoch (i.voteCurrent ++ i.voteDelinquent)))
      (processedOf i.epochInfo.epoch (i.voteCurrent ++ i.voteDelinquent)) = .placeholder := by
    unfold resolveTarget
    rw [findRankedAux_none cfg.identity _ 1 hrm, hfp]
  rw [hproc]
  simp [buildRecord, hres, rankOf, targetIdentity, targetVote, targetEarned, targetStake]

/-- Witness for C4: the target `ME` absent from the single-entry current list. -/
theorem C4_absent_target_witness :
    inputsC4.perfSamples = .ok .notList ∧
    (∀ v ∈ inputsC4.voteCurrent ++ inputsC4.voteDelinquent,
      v.nodePubkey ≠ cfgME.identity) ∧
    (process cfgME inputsC4).map (fun r => (r.rank, r.active_stake_sol, r.epoch_credits,
      r.vote_account_pubkey, r.identity_pubkey)) =
      some (none, 0, 0, "N/A", cfgME.identity) :=
  ⟨rfl, by decide, C4_absent_target cfgME inputsC4 .notList rfl (by decide)⟩

/-- Counterexample to claim C3 as stated: a performance-samples fetch failure
after all endpoints and retries (with valid slot fields) is fatal — the run
returns no record at all instead of degrading to the default slot duration. -/
theorem C3_counterexample : process cfgME inputsC3 = none := rfl

/-- Claim C3 (amended): a leader-schedule fetch failure degrades to the
all-zero leader-slot summary and a block-production fetch failure degrades to
zero skipped slots and zero skip rate (totals kept), neither fatal; a
performance-samples body of unexpected shape degrades to the empty list and
hence the fixed default slot duration of 2/5 s; but a performance-samples
TRANSPORT failure after all endpoints and retries aborts the run (no record)
whenever the slot fields are valid, contrary to the original claim. -/
theorem C3_noncritical_amended :
    (∀ (cfg : Config) (i : Inputs) (raw : PerfRaw), i.perfSamples = .ok raw →
      i.leaderSchedule = .error () →
      (process cfg i).map (fun r => (r.leader_slots_total, r.leader_slots_completed,
        r.leader_slots_upcoming, r.leader_slots_skipped, r.leader_skip_rate)) =
        some (0, 0, 0, 0, 0)) ∧
    (∀ (cfg : Config) (i : Inputs) (raw : PerfRaw), i.perfSamples = .ok raw →
      i.blockProduction = .error () →
      (process cfg i).map (fun r => (r.leader_slots_skipped, r.leader_skip_rate)) =
        some (0, 0)) ∧
    (getRecentPerformanceSamples (.ok .notList) = .ok [] ∧ avgSlotTime [] = 2 / 5) ∧
    (∀ (cfg : Config) (i : Inputs) (si se : Int), i.perfSamples = .error () →
      i.epochInfo.slotIndex = some si → i.epochInfo.slotsInEpoch = some se → se ≠ 0 →
      process cfg i = none) := by
  refine ⟨?_, ?_, ⟨rfl, rfl⟩, ?_⟩
  · intro cfg i raw hperf hsched
    obtain ⟨pc, tl, hp, hproc⟩ := process_ok cfg i raw hperf
    rw [hproc]
    simp [buildRecord, hsched, leaderMetrics_sched_error]
  · intro cfg i raw hperf hbp
    obtain ⟨pc, tl, hp, hproc⟩ := process_ok cfg i raw hperf
    rw [hproc]
    simp [buildRecord, hbp, leaderMetrics_bp_error]
  · intro cfg i si se hperf hsi hse hne0
    have hcp : calcEpochProgress i.epochInfo i.perfSamples = .error () := by
      rw [hperf]
      simp [calcEpochProgress, hsi, hse, hne0, getRecentPerformanceSamples]
    simp [process, hcp]

/-- Witness for C3 (amended): a failed leader-schedule fetch leaves the
all-zero summary on a completed run, and a failed samples fetch with valid
slot fields yields no record. -/
theorem C3_noncritical_amended_witness :
    baseInputs.perfSamples = .ok .notList ∧ baseInputs.leaderSchedule = .error () ∧
    (process cfgME baseInputs).map (fun r => (r.leader_slots_total, r.leader_slots_completed,
      r.leader_slots_upcoming, r.leader_slots_skipped, r.leader_skip_rate)) =
      some (0, 0, 0, 0, 0) ∧
    inputsC3.perfSamples = .error () ∧ inputsC3.epochInfo.slotIndex = some 1 ∧
    inputsC3.epochInfo.slotsInEpoch = some 10 ∧ ((10 : Int) ≠ 0) ∧
    process cfgME inputsC3 = none :=
  ⟨rfl, rfl, C3_noncritical_amended.1 cfgME baseInputs .notList rfl rfl, rfl, rfl, rfl,
    by decide, C3_noncritical_amended.2.2.2 cfgME inputsC3 1 10 rfl rfl rfl (by decide)⟩

/-- Claim C9: in every record the run returns, the identity pubkey equals the
configured key (found entries matched it by the search condition, the
placeholder carries it, and the extraction falls back to it); hence whenever
the configured key is not the literal `N/A` sentinel, the identity-guarded
steps execute: the identity balance is the rendering of the balance fetch for
the configured key, and with a schedule in hand the leader total is the
length of the slot list of the configured key. -/
theorem C9_identity_invariant (cfg : Config) (i : Inputs) (rec : StatusRecord)
    (hrec : rec ∈ process cfg i) :
    rec.identity_pubkey = cfg.identity ∧
    (cfg.identity ≠ "N/A" →
      rec.identity_balance_sol =
        (balanceSeen cfg.identity (i.balanceRes cfg.identity)).map
          (fun v => (v : ℚ) / LAMPORTS_PER_SOL) ∧
      ∀ m, i.leaderSchedule = .ok m →
        rec.leader_slots_total = ((assocFind cfg.identity m).getD []).length) := by
  have hrec' : process cfg i = some rec := Option.mem_def.mp hrec
  rcases hcp : calcEpochProgress i.epochInfo i.perfSamples with e | p
  · unfold process at hrec'
    rw [hcp] at hrec'
    simp at hrec'
  · obtain ⟨pc, tl⟩ := p
    unfold process at hrec'
    rw [hcp] at hrec'
    replace hrec' : buildRecord cfg i pc tl = rec := by simpa using hrec'
    subst hrec'
    have hid := targetIdentity_resolve cfg.identity
      (rankedOf (processedOf i.epochInfo.epoch (i.voteCurrent ++ i.voteDelinquent)))
      (processedOf i.epochInfo.epoch (i.voteCurrent ++ i.voteDelinquent))
    refine ⟨by simp [buildRecord, hid], fun hna => ⟨?_, fun m hm => ?_⟩⟩
    · simp [buildRecord, hid, hna]
    · have hlt := leaderMetrics_total cfg.identity i.epochInfo m i.blockProduction hna
      simp [buildRecord, hid, hm, hlt]

/-- Witness for C9 on a concrete completed run with identity `ME`. -/
theorem C9_identity_invariant_witness :
    recW ∈ process cfgME inputsW ∧ cfgME.identity ≠ "N/A" ∧
    inputsW.leaderSchedule = .ok [("ME", [3, 4])] ∧
    recW.identity_pubkey = cfgME.identity ∧
    recW.identity_balance_sol =
      (balanceSeen cfgME.identity (inputsW.balanceRes cfgME.identity)).map
        (fun v => (v : ℚ) / LAMPORTS_PER_SOL) ∧
    recW.leader_slots_total = ((assocFind cfgME.identity [("ME", [3, 4])]).getD []).length := by
  have hmem : recW ∈ process cfgME inputsW := Option.mem_def.mpr rfl
  have h := C9_identity_invariant cfgME inputsW recW hmem
  have h2 := h.2 (by decide)
  exact ⟨hmem, by decide, rfl, h.1, h2.1, h2.2 [("ME", [3, 4])] rfl⟩

/-- Counterexample to claim C7 as stated: with slot index 1 of 2 and an
average slot duration of 90060 s (one sample: 1 slot over 90060 s), the
remaining time is 1 day + 1 hour + 1 min and the source renders all THREE
non-zero units, not only the two largest the claim allows. -/
theorem C7_counterexample :
    calcEpochProgress epochInfoC7 (.ok (.list [sampleC7])) =
      .ok (50, "1 day, 1 hour, 1 min") := by
  have havg : avgSlotTime [sampleC7] = 90060 := by
    unfold avgSlotTime sampleC7
    norm_num
  have hc : timeComponents 90060 = (1, 1, 1, 0) := by
    unfold timeComponents
    norm_num
  have hfmt : formatRemaining 90060 50 = "1 day, 1 hour, 1 min" := by
    unfold formatRemaining
    rw [hc]
    norm_num [fmtUnit, plural]
    rfl
  have hstep : calcEpochProgress epochInfoC7 (.ok (.list [sampleC7])) =
      .ok ((((1 : Int) : ℚ) / ((2 : Int) : ℚ)) * 100,
        formatRemaining ((((2 : Int) - 1 : Int) : ℚ) * avgSlotTime (rawList (.list [sampleC7])))
          ((((1 : Int) : ℚ) / ((2 : Int) : ℚ)) * 100)) := by
    have h1 : epochInfoC7.slotIndex = some 1 := rfl
    have h2 : epochInfoC7.slotsInEpoch = some 2 := rfl
    have h3 : ((2 : Int) ≠ 0) := by decide
    simp [calcEpochProgress, h1, h2, h3, getRecentPerformanceSamples_ok]
  rw [hstep]
  have h4 : rawList (.list [sampleC7]) = [sampleC7] := rfl
  rw [h4, havg]
  have hpc : (((1 : Int) : ℚ) / ((2 : Int) : ℚ)) * 100 = 50 := by norm_num
  have ht : (((2 : Int) - 1 : Int) : ℚ) * (90060 : ℚ) = 90060 := by norm_num
  rw [hpc, ht, hfmt]

/-- Claim C7 (amended): for valid slot fields and a decoded samples body the
progress pair is percent = slotIndex / slotsInEpoch * 100 and the string is
the rendering of (slotsInEpoch - slotIndex) * avgSlotDuration; and the
rendering shows EVERY non-zero unit among days, hours and minutes in that
order (not only the two largest), seconds only when none of those is positive
and the leftover seconds are, and otherwise the near-complete (percent above
99.9) or calculating placeholder — as captured by the spec-modelled
`renderSpecUnits`, which agrees with the source rendering everywhere. -/
theorem C7_remaining_time_amended :
    (∀ (ei : EpochInfo) (raw : PerfRaw) (si se : Int),
      ei.slotIndex = some si → ei.slotsInEpoch = some se → se ≠ 0 →
      calcEpochProgress ei (.ok raw) =
        .ok (((si : ℚ) / (se : ℚ)) * 100,
          formatRemaining (((se - si : Int) : ℚ) * avgSlotTime (rawList raw))
            (((si : ℚ) / (se : ℚ)) * 100))) ∧
    (∀ t pc : ℚ, formatRemaining t pc = renderSpecUnits t pc) := by
  constructor
  · intro ei raw si se hsi hse hne0
    simp [calcEpochProgress, hsi, hse, hne0, getRecentPerformanceSamples_ok]
  · intro t pc
    unfold formatRemaining renderSpecUnits
    rcases htc : timeComponents t with ⟨d, hq, mq, sq⟩
    dsimp only
    by_cases hd : 0 < d <;> by_cases hh : 0 < hq <;> by_cases hm : 0 < mq <;>
      by_cases hs : 0 < sq <;>
      simp [hd, hh, hm, hs, intercalate_singleton]

/-- Witness for C7 (amended) at slot 1 of 2 with a non-list samples body (so
the default duration applies) and at the rendering of zero remaining time. -/
theorem C7_remaining_time_amended_witness :
    epochInfoC7.slotIndex = some 1 ∧ epochInfoC7.slotsInEpoch = some 2 ∧ ((2 : Int) ≠ 0) ∧
    calcEpochProgress epochInfoC7 (.ok .notList) =
      .ok ((((1 : Int) : ℚ) / ((2 : Int) : ℚ)) * 100,
        formatRemaining ((((2 : Int) - 1 : Int) : ℚ) * avgSlotTime (rawList .notList))
          ((((1 : Int) : ℚ) / ((2 : Int) : ℚ)) * 100)) ∧
    formatRemaining 0 0 = renderSpecUnits 0 0 :=
  ⟨rfl, rfl, by decide,
    C7_remaining_time_amended.1 epochInfoC7 .notList 1 2 rfl rfl (by decide),
    C7_remaining_time_amended.2 0 0⟩
